import Mathlib

/-!
Verification of the text-similarity search engine of `src/search.py`.

The source builds a TF-IDF index over a list of JSON documents with
`sklearn.feature_extraction.text.TfidfVectorizer()` (all defaults) and ranks
documents against a query by cosine similarity (`search_solutions`).

Embedding notes, all taken from the source and the documented behaviour of the
library calls it makes with default parameters:
* `TfidfVectorizer()` tokenizes by lowercasing and extracting maximal runs of
  word characters, keeping only tokens of length at least two
  (default `token_pattern` is two-or-more word characters); word characters
  are modelled over the ASCII range, which covers every input considered here.
* The IDF weight (default `smooth_idf=True`) of a term with document
  frequency `df` in a corpus of `n` documents is `log((n+1)/(df+1)) + 1`;
  a document row is its raw term-count-times-IDF vector L2-normalized
  (default `norm="l2"`; an all-zero row stays zero, which matches Lean's
  `x / 0 = 0` convention for real division, so no special case is needed).
* `fit_transform` raises `ValueError` ("empty vocabulary") when no token is
  observed — in particular on an empty document list — and the text-field
  lookup `doc[TEXT_FIELD]` raises `KeyError` when the field is absent.
  These two failure modes are the constructors of `BuildError` below.
* Machine floating point is idealized as `ℝ`; scores are exact reals.
-/

/-- A JSON record from `solutions.json`: the searchable text field
(`TEXT_FIELD = "faiblesses"`), which may be absent, plus the remaining
payload fields, which the engine carries opaquely and never inspects. -/
structure Doc where
  text? : Option String
  payload : List (String × String)
  deriving DecidableEq, Inhabited

/-- The built index returned by `load_data`: the raw documents and the list of
their text fields. The fitted vectorizer state (vocabulary, document
frequencies) and the TF-IDF matrix are deterministic functions of the texts
and are recovered by the definitions below. -/
structure Index where
  docs : List Doc
  texts : List String
  deriving DecidableEq

/-- Default result count (`TOP_K = 5` in the source). -/
def TOP_K : ℕ := 5

/-- Word characters of the vectorizer's default token pattern (ASCII range). -/
def isWordChar (c : Char) : Bool := c.isAlphanum || c = '_'

/-- Emit one pending token (a reversed run of word characters), keeping it
only when it has length at least two, as the default token pattern does. -/
def flushTok (acc : List Char) : List String :=
  if 2 ≤ acc.length then [String.mk acc.reverse] else []

/-- Scan a lowercased character list, accumulating the current run of word
characters in `acc` (reversed) and emitting kept tokens. -/
def tokenizeAux : List Char → List Char → List String
  | [], acc => flushTok acc
  | c :: cs, acc =>
    if isWordChar c then tokenizeAux cs (c :: acc)
    else flushTok acc ++ tokenizeAux cs []

/-- `TfidfVectorizer()`'s analyzer: lowercase, then extract maximal runs of
word characters of length at least two. -/
def tokenize (s : String) : List String :=
  tokenizeAux (s.data.map Char.toLower) []

/-- The ways `load_data` can fail: `missingField` is the `KeyError` raised by
`doc[TEXT_FIELD]` when a document lacks the text field; `emptyVocab` is the
`ValueError` ("empty vocabulary") raised by `fit_transform` when tokenizing
the corpus yields no term at all, in particular when the corpus is empty. -/
inductive BuildError where
  | missingField
  | emptyVocab
  deriving DecidableEq

/-- The list comprehension `[doc[TEXT_FIELD] for doc in docs]`: `none` when
some document lacks the text field (the comprehension raises `KeyError`). -/
def getTexts : List Doc → Option (List String)
  | [] => some []
  | d :: ds =>
    match d.text?, getTexts ds with
    | some t, some ts => some (t :: ts)
    | _, _ => none

/-- The fitted vocabulary: every distinct term observed across the corpus.
The dimension order assigned to terms does not affect any dot product or
norm below, which sum over the whole vocabulary. -/
def buildVocab (texts : List String) : List String :=
  ((texts.map tokenize).flatten).dedup

/-- `load_data` (minus the file I/O, which the spec assigns to the caller):
extract the text fields, fit the vectorizer, and return the index.
The 2095-line source raises `KeyError` if a text field is missing and
`ValueError` if the fitted vocabulary is empty. -/
def loadData (docs : List Doc) : Except BuildError Index :=
  match getTexts docs with
  | none => Except.error BuildError.missingField
  | some ts =>
    if buildVocab ts = [] then Except.error BuildError.emptyVocab
    else Except.ok ⟨docs, ts⟩

/-- Number of corpus documents. -/
def Index.nDocs (idx : Index) : ℕ := idx.texts.length

/-- Tokenized corpus texts, row-parallel to `docs`. -/
def Index.corpusToks (idx : Index) : List (List String) := idx.texts.map tokenize

/-- The frozen Term Vocabulary of the built index. -/
def Index.vocab (idx : Index) : List String := buildVocab idx.texts

/-- Document frequency of a term: number of corpus documents containing it. -/
def Index.df (idx : Index) (t : String) : ℕ :=
  (idx.texts.filter (fun s => (tokenize s).contains t)).length

/-- Smoothed inverse document frequency, `log((n+1)/(df+1)) + 1`, exactly the
vectorizer's default (`smooth_idf=True`). -/
noncomputable def Index.idf (idx : Index) (t : String) : ℝ :=
  Real.log (((idx.nDocs : ℝ) + 1) / ((idx.df t : ℝ) + 1)) + 1

/-- Unnormalized TF-IDF weight of term `t` for a token list: raw term count
times the frozen IDF weight. -/
noncomputable def rawW (idx : Index) (toks : List String) (t : String) : ℝ :=
  (toks.count t : ℝ) * idx.idf t

/-- L2 norm of an unnormalized TF-IDF vector, summed over the vocabulary. -/
noncomputable def vecNorm (idx : Index) (toks : List String) : ℝ :=
  Real.sqrt ((idx.vocab.map (fun t => rawW idx toks t ^ 2)).sum)

/-- Normalized TF-IDF weight (a row of the matrix, or the transformed query).
When the vector is all-zero the norm is `0` and real division yields `0`,
matching the library's convention of leaving zero rows unnormalized. -/
noncomputable def normW (idx : Index) (toks : List String) (t : String) : ℝ :=
  rawW idx toks t / vecNorm idx toks

/-- Cosine similarity: dot product of the two unit-normalized TF-IDF vectors,
`tfidf_matrix @ query_vector.T` in the source. -/
noncomputable def cosSim (idx : Index) (dToks qToks : List String) : ℝ :=
  (idx.vocab.map (fun t => normW idx dToks t * normW idx qToks t)).sum

/-- The score array `scores`: cosine similarity of every corpus document
against the query. -/
noncomputable def scoresOf (idx : Index) (q : String) : List ℝ :=
  idx.corpusToks.map (fun d => cosSim idx d (tokenize q))

/-- Squared L2 norm of document row `i` of the TF-IDF matrix. -/
noncomputable def docSqNorm (idx : Index) (i : ℕ) : ℝ :=
  (idx.vocab.map (fun t => normW idx (idx.corpusToks.getD i []) t ^ 2)).sum

/-- Index-comparison relation realizing `np.argsort(-scores)`: `i` precedes
`j` when `i` scores strictly higher, or scores are tied and `i ≤ j`.
Modelled from the spec for the tied case: the source leaves the order of
tied indices to the sort implementation, and the spec fixes the contract to
"ties broken by original corpus order". -/
def rankRel (sc : List ℝ) (i j : ℕ) : Prop :=
  sc.getD j 0 < sc.getD i 0 ∨ (sc.getD i 0 = sc.getD j 0 ∧ i ≤ j)

noncomputable instance (sc : List ℝ) : DecidableRel (rankRel sc) := fun i j => by
  unfold rankRel; infer_instance

instance (sc : List ℝ) : IsTotal ℕ (rankRel sc) := by
  constructor
  intro i j
  rcases lt_trichotomy (sc.getD i 0) (sc.getD j 0) with h | h | h
  · exact Or.inr (Or.inl h)
  · rcases le_total i j with hij | hij
    · exact Or.inl (Or.inr ⟨h, hij⟩)
    · exact Or.inr (Or.inr ⟨h.symm, hij⟩)
  · exact Or.inl (Or.inl h)

instance (sc : List ℝ) : IsTrans ℕ (rankRel sc) := by
  constructor
  intro i j k hij hjk
  rcases hij with h₁ | ⟨e₁, l₁⟩
  · rcases hjk with h₂ | ⟨e₂, l₂⟩
    · exact Or.inl (h₂.trans h₁)
    · exact Or.inl (e₂ ▸ h₁)
  · rcases hjk with h₂ | ⟨e₂, l₂⟩
    · exact Or.inl (e₁ ▸ h₂)
    · exact Or.inr ⟨e₁.trans e₂, l₁.trans l₂⟩

/-- `np.argsort(-scores)`: the indices `0, …, n-1` ordered by descending
score (ties by index, see `rankRel`). -/
noncomputable def argsortDesc (sc : List ℝ) : List ℕ :=
  List.insertionSort (rankRel sc) (List.range sc.length)

/-- Comparison used by the final `results.sort(key=lambda x: x[1],
reverse=True)`: descending score on `(document, score)` pairs. -/
def descRel (a b : Doc × ℝ) : Prop := b.2 ≤ a.2

noncomputable instance : DecidableRel descRel := fun a b =>
  Real.decidableLE b.2 a.2

instance : IsTotal (Doc × ℝ) descRel := ⟨fun a b => le_total b.2 a.2⟩

instance : IsTrans (Doc × ℝ) descRel := ⟨fun _ _ _ h₁ h₂ => le_trans h₂ h₁⟩

/-- The indices that survive selection: top `topK` positions of the argsort,
then the `score > 0` filter of the result loop. -/
noncomputable def selectedIdx (idx : Index) (q : String) (topK : ℕ) : List ℕ :=
  ((argsortDesc (scoresOf idx q)).take topK).filter
    (fun i => decide (0 < (scoresOf idx q).getD i 0))

/-- `search_solutions(query, docs, vectorizer, tfidf_matrix, top_k)`:
empty query short-circuits to `[]`; otherwise score every document, take the
`top_k` argsort positions, keep strictly positive scores pairing each index
with its document, and finally sort by descending score (Python's stable
sort). -/
noncomputable def searchSolutions (query : String) (idx : Index) (topK : ℕ) :
    List (Doc × ℝ) :=
  if query = "" then []
  else
    let scores := scoresOf idx query
    let top := (argsortDesc scores).take topK
    let results := (top.filter (fun i => decide (0 < scores.getD i 0))).map
      (fun i => (idx.docs.getD i default, scores.getD i 0))
    List.insertionSort descRel results

/-- State-threading rendition of `search_solutions` for the frame property:
every step of the function only reads the index (documents, fitted
vectorizer, TF-IDF matrix), so the state passes through unchanged; the only
mutation in the source, `results.sort`, acts on the fresh local list. -/
noncomputable def searchSolutionsSt (query : String) (st : Index) (topK : ℕ) :
    Index × List (Doc × ℝ) :=
  if query = "" then (st, [])
  else
    let scores := scoresOf st query
    let top := (argsortDesc scores).take topK
    let results := (top.filter (fun i => decide (0 < scores.getD i 0))).map
      (fun i => (st.docs.getD i default, scores.getD i 0))
    (st, List.insertionSort descRel results)

/-! ## Basic facts about the TF-IDF weights -/

lemma df_le_nDocs (idx : Index) (t : String) : idx.df t ≤ idx.nDocs :=
  List.length_filter_le _ _

lemma one_le_idf (idx : Index) (t : String) : 1 ≤ idx.idf t := by
  unfold Index.idf
  have hd : (idx.df t : ℝ) ≤ (idx.nDocs : ℝ) := Nat.cast_le.mpr (df_le_nDocs idx t)
  have h : (0:ℝ) ≤ Real.log (((idx.nDocs : ℝ) + 1) / ((idx.df t : ℝ) + 1)) := by
    apply Real.log_nonneg
    rw [one_le_div (by positivity)]
    linarith
  linarith

lemma idf_pos (idx : Index) (t : String) : 0 < idx.idf t :=
  lt_of_lt_of_le one_pos (one_le_idf idx t)

lemma rawW_nonneg (idx : Index) (toks : List String) (t : String) :
    0 ≤ rawW idx toks t :=
  mul_nonneg (Nat.cast_nonneg _) (idf_pos idx t).le

lemma vecNorm_nonneg (idx : Index) (toks : List String) : 0 ≤ vecNorm idx toks :=
  Real.sqrt_nonneg _

lemma normW_nonneg (idx : Index) (toks : List String) (t : String) :
    0 ≤ normW idx toks t :=
  div_nonneg (rawW_nonneg idx toks t) (vecNorm_nonneg idx toks)

lemma cosSim_nonneg (idx : Index) (dToks qToks : List String) :
    0 ≤ cosSim idx dToks qToks := by
  apply List.sum_nonneg
  intro x hx
  rcases List.mem_map.mp hx with ⟨t, _, rfl⟩
  exact mul_nonneg (normW_nonneg idx dToks t) (normW_nonneg idx qToks t)

lemma vocab_nodup (idx : Index) : idx.vocab.Nodup := List.nodup_dedup _

lemma vocab_sum_eq (idx : Index) (f : String → ℝ) :
    (idx.vocab.map f).sum = ∑ t ∈ idx.vocab.toFinset, f t :=
  (List.sum_toFinset f (vocab_nodup idx)).symm

lemma vecNorm_eq (idx : Index) (toks : List String) :
    vecNorm idx toks = Real.sqrt (∑ t ∈ idx.vocab.toFinset, rawW idx toks t ^ 2) := by
  unfold vecNorm
  rw [vocab_sum_eq]

lemma vecNorm_sq (idx : Index) (toks : List String) :
    vecNorm idx toks ^ 2 = ∑ t ∈ idx.vocab.toFinset, rawW idx toks t ^ 2 := by
  rw [vecNorm_eq]
  exact Real.sq_sqrt (Finset.sum_nonneg fun t _ => sq_nonneg _)

lemma cosSim_eq_div (idx : Index) (dToks qToks : List String) :
    cosSim idx dToks qToks =
      (∑ t ∈ idx.vocab.toFinset, rawW idx dToks t * rawW idx qToks t) /
        (vecNorm idx dToks * vecNorm idx qToks) := by
  unfold cosSim normW
  rw [vocab_sum_eq, Finset.sum_div]
  exact Finset.sum_congr rfl fun t _ => div_mul_div_comm _ _ _ _

lemma cosSim_le_one (idx : Index) (dToks qToks : List String) :
    cosSim idx dToks qToks ≤ 1 := by
  rw [cosSim_eq_div]
  by_cases h : vecNorm idx dToks * vecNorm idx qToks = 0
  · rw [h, div_zero]
    norm_num
  · have hpos : 0 < vecNorm idx dToks * vecNorm idx qToks :=
      lt_of_le_of_ne (mul_nonneg (vecNorm_nonneg idx dToks) (vecNorm_nonneg idx qToks))
        (Ne.symm h)
    rw [div_le_one hpos]
    calc ∑ t ∈ idx.vocab.toFinset, rawW idx dToks t * rawW idx qToks t
        ≤ Real.sqrt (∑ t ∈ idx.vocab.toFinset, rawW idx dToks t ^ 2) *
            Real.sqrt (∑ t ∈ idx.vocab.toFinset, rawW idx qToks t ^ 2) :=
          Real.sum_mul_le_sqrt_mul_sqrt _ _ _
      _ = vecNorm idx dToks * vecNorm idx qToks := by rw [vecNorm_eq, vecNorm_eq]

lemma cosSim_self (idx : Index) (toks : List String) (h : vecNorm idx toks ≠ 0) :
    cosSim idx toks toks = 1 := by
  rw [cosSim_eq_div]
  have hnum : ∑ t ∈ idx.vocab.toFinset, rawW idx toks t * rawW idx toks t =
      vecNorm idx toks * vecNorm idx toks := by
    rw [← pow_two, vecNorm_sq]
    exact Finset.sum_congr rfl fun t _ => (pow_two _).symm
  rw [hnum, div_self (mul_ne_zero h h)]

lemma vecNorm_pos (idx : Index) (toks : List String) (t : String)
    (ht : t ∈ idx.vocab) (hc : t ∈ toks) : 0 < vecNorm idx toks := by
  rw [vecNorm_eq]
  apply Real.sqrt_pos.mpr
  apply Finset.sum_pos' (fun s _ => sq_nonneg _)
  refine ⟨t, List.mem_toFinset.mpr ht, ?_⟩
  apply pow_pos
  apply mul_pos _ (idf_pos idx t)
  exact_mod_cast List.count_pos_iff.mpr hc

lemma tok_mem_vocab (idx : Index) {i : ℕ} (hi : i < idx.nDocs) {t : String}
    (ht : t ∈ idx.corpusToks.getD i []) : t ∈ idx.vocab := by
  unfold Index.vocab buildVocab
  rw [List.mem_dedup, List.mem_flatten]
  refine ⟨idx.corpusToks.getD i [], ?_, ht⟩
  have hlen : i < idx.corpusToks.length := by
    simpa [Index.corpusToks, Index.nDocs] using hi
  rw [List.getD_eq_getElem _ _ hlen]
  exact List.getElem_mem hlen

lemma corpusToks_getD (idx : Index) {i : ℕ} (hi : i < idx.nDocs) :
    idx.corpusToks.getD i [] = tokenize (idx.texts.getD i "") := by
  have h1 : i < idx.corpusToks.length := by
    simpa [Index.corpusToks, Index.nDocs] using hi
  have h2 : i < idx.texts.length := hi
  rw [List.getD_eq_getElem _ _ h1, List.getD_eq_getElem _ _ h2]
  simp [Index.corpusToks]

lemma normW_nil (idx : Index) (t : String) : normW idx [] t = 0 := by
  simp [normW, rawW]

lemma cosSim_zero_of_orth (idx : Index) (dToks qToks : List String)
    (h : ∀ t ∈ idx.vocab, qToks.count t = 0) : cosSim idx dToks qToks = 0 := by
  apply List.sum_eq_zero
  intro x hx
  rcases List.mem_map.mp hx with ⟨t, ht, rfl⟩
  have hq : normW idx qToks t = 0 := by
    unfold normW rawW
    rw [h t ht]
    simp
  rw [hq, mul_zero]

lemma scoresOf_length (idx : Index) (q : String) :
    (scoresOf idx q).length = idx.nDocs := by
  simp [scoresOf, Index.corpusToks, Index.nDocs]

lemma scoresOf_getD (idx : Index) (q : String) {i : ℕ} (hi : i < idx.nDocs) :
    (scoresOf idx q).getD i 0 = cosSim idx (idx.corpusToks.getD i []) (tokenize q) := by
  have h1 : i < (scoresOf idx q).length := by rw [scoresOf_length]; exact hi
  have h2 : i < idx.corpusToks.length := by
    simpa [Index.corpusToks, Index.nDocs] using hi
  rw [List.getD_eq_getElem _ _ h1, List.getD_eq_getElem _ _ h2]
  simp [scoresOf]

lemma scoresOf_getD_nonneg (idx : Index) (q : String) (i : ℕ) :
    0 ≤ (scoresOf idx q).getD i 0 := by
  by_cases hi : i < (scoresOf idx q).length
  · have hin : i < idx.nDocs := by rw [scoresOf_length] at hi; exact hi
    rw [scoresOf_getD idx q hin]
    exact cosSim_nonneg _ _ _
  · rw [List.getD_eq_default _ _ (not_lt.mp hi)]

/-! ## Facts about the ranking pipeline -/

lemma argsort_perm (sc : List ℝ) : (argsortDesc sc).Perm (List.range sc.length) :=
  List.perm_insertionSort _ _

lemma argsort_sorted (sc : List ℝ) : List.Sorted (rankRel sc) (argsortDesc sc) :=
  List.sorted_insertionSort _ _

lemma argsort_length (sc : List ℝ) : (argsortDesc sc).length = sc.length := by
  rw [(argsort_perm sc).length_eq, List.length_range]

lemma argsort_nodup (sc : List ℝ) : (argsortDesc sc).Nodup :=
  (argsort_perm sc).nodup_iff.mpr (List.nodup_range _)

lemma mem_argsort (sc : List ℝ) (i : ℕ) : i ∈ argsortDesc sc ↔ i < sc.length := by
  rw [(argsort_perm sc).mem_iff, List.mem_range]

lemma selectedIdx_sublist (idx : Index) (q : String) (k : ℕ) :
    (selectedIdx idx q k).Sublist (argsortDesc (scoresOf idx q)) :=
  (List.filter_sublist _).trans (List.take_sublist _ _)

lemma selectedIdx_pairwise (idx : Index) (q : String) (k : ℕ) :
    List.Pairwise (rankRel (scoresOf idx q)) (selectedIdx idx q k) :=
  List.Pairwise.sublist (selectedIdx_sublist idx q k) (argsort_sorted _)

lemma selectedIdx_nodup (idx : Index) (q : String) (k : ℕ) :
    (selectedIdx idx q k).Nodup :=
  List.Nodup.sublist (selectedIdx_sublist idx q k) (argsort_nodup _)

lemma selectedIdx_mem (idx : Index) (q : String) (k : ℕ) {i : ℕ}
    (hi : i ∈ selectedIdx idx q k) :
    i < (scoresOf idx q).length ∧ 0 < (scoresOf idx q).getD i 0 := by
  unfold selectedIdx at hi
  rcases List.mem_filter.mp hi with ⟨hmem, hcond⟩
  exact ⟨(mem_argsort _ _).mp (List.mem_of_mem_take hmem), of_decide_eq_true hcond⟩

lemma results_sorted (idx : Index) (q : String) (k : ℕ) :
    List.Sorted descRel ((selectedIdx idx q k).map
      (fun i => (idx.docs.getD i default, (scoresOf idx q).getD i 0))) := by
  refine List.pairwise_map.mpr ((selectedIdx_pairwise idx q k).imp ?_)
  intro a b hab
  rcases hab with h | ⟨h, _⟩
  · exact le_of_lt h
  · exact le_of_eq h.symm

lemma searchSolutions_eq_map (idx : Index) (q : String) (k : ℕ) (hq : q ≠ "") :
    searchSolutions q idx k = (selectedIdx idx q k).map
      (fun i => (idx.docs.getD i default, (scoresOf idx q).getD i 0)) := by
  unfold searchSolutions
  rw [if_neg hq]
  exact List.Sorted.insertionSort_eq (results_sorted idx q k)

lemma searchSt_fst (q : String) (idx : Index) (k : ℕ) :
    (searchSolutionsSt q idx k).1 = idx := by
  unfold searchSolutionsSt
  split <;> rfl

lemma scores_zero_of_oov (idx : Index) (q : String)
    (h : ∀ t ∈ tokenize q, t ∉ idx.vocab) (i : ℕ) :
    (scoresOf idx q).getD i 0 = 0 := by
  by_cases hi : i < (scoresOf idx q).length
  · have hin : i < idx.nDocs := by rw [scoresOf_length] at hi; exact hi
    rw [scoresOf_getD idx q hin]
    apply cosSim_zero_of_orth
    intro t ht
    rw [List.count_eq_zero]
    intro hmem
    exact h t hmem ht
  · rw [List.getD_eq_default _ _ (not_lt.mp hi)]

lemma search_eq_nil_of_oov (idx : Index) (q : String) (k : ℕ)
    (h : ∀ t ∈ tokenize q, t ∉ idx.vocab) :
    selectedIdx idx q k = [] ∧ searchSolutions q idx k = [] := by
  have hsel : selectedIdx idx q k = [] := by
    unfold selectedIdx
    rw [List.filter_eq_nil_iff]
    intro i _
    rw [scores_zero_of_oov idx q h i]
    simp
  refine ⟨hsel, ?_⟩
  by_cases hq : q = ""
  · rw [hq]
    unfold searchSolutions
    rw [if_pos rfl]
  · rw [searchSolutions_eq_map idx q k hq, hsel]
    rfl

lemma tokenize_empty : tokenize "" = [] := rfl

lemma searchSolutions_head (idx : Index) (q : String) (k d : ℕ) (hq : q ≠ "")
    (hd : d < (scoresOf idx q).length)
    (hmax : ∀ j < (scoresOf idx q).length, j ≠ d →
      (scoresOf idx q).getD j 0 < (scoresOf idx q).getD d 0)
    (hpos : 0 < (scoresOf idx q).getD d 0) (hk : 1 ≤ k) :
    (searchSolutions q idx k).head? =
      some (idx.docs.getD d default, (scoresOf idx q).getD d 0) := by
  rw [searchSolutions_eq_map idx q k hq]
  have hne : argsortDesc (scoresOf idx q) ≠ [] := by
    rw [← List.length_pos, argsort_length]
    omega
  obtain ⟨h, tl, hA⟩ := List.exists_cons_of_ne_nil hne
  have hh : h = d := by
    by_contra hhd
    have hhm : h ∈ argsortDesc (scoresOf idx q) := by rw [hA]; exact List.mem_cons_self _ _
    have hhl : h < (scoresOf idx q).length := (mem_argsort _ _).mp hhm
    have hdm : d ∈ argsortDesc (scoresOf idx q) := (mem_argsort _ _).mpr hd
    have hdt : d ∈ tl := by
      rw [hA] at hdm
      rcases List.mem_cons.mp hdm with heq | hmem
      · exact absurd heq.symm hhd
      · exact hmem
    have hs := argsort_sorted (scoresOf idx q)
    rw [hA, List.sorted_cons] at hs
    have hrel := hs.1 d hdt
    have hlt := hmax h hhl hhd
    rcases hrel with hlt' | ⟨heq, _⟩
    · exact absurd hlt' (lt_asymm hlt)
    · rw [heq] at hlt
      exact lt_irrefl _ hlt
  obtain ⟨k', rfl⟩ : ∃ k', k = k' + 1 := ⟨k - 1, by omega⟩
  have hsel : selectedIdx idx q (k' + 1) =
      d :: (tl.take k').filter (fun i => decide (0 < (scoresOf idx q).getD i 0)) := by
    unfold selectedIdx
    rw [hA, hh, List.take_succ_cons]
    exact List.filter_cons_of_pos (decide_eq_true hpos)
  rw [hsel]
  rfl

lemma sorted_take_filter_length :
    ∀ (l : List ℝ), List.Sorted (fun a b => b ≤ a) l → (∀ x ∈ l, 0 ≤ x) →
    ∀ k : ℕ, ((l.take k).filter (fun x => decide (0 < x))).length =
      min k (l.countP (fun x => decide (0 < x))) := by
  intro l
  induction l with
  | nil => intro _ _ k; simp
  | cons a t ih =>
    intro hs hnn k
    rw [List.sorted_cons] at hs
    rcases k with _ | k'
    · simp
    · rw [List.take_succ_cons]
      by_cases ha : 0 < a
      · have hf : List.filter (fun x => decide (0 < x)) (a :: t.take k') =
            a :: List.filter (fun x => decide (0 < x)) (t.take k') :=
          List.filter_cons_of_pos (decide_eq_true ha)
        have hc : List.countP (fun x => decide (0 < x)) (a :: t) =
            List.countP (fun x => decide (0 < x)) t + 1 :=
          List.countP_cons_of_pos _ _ (decide_eq_true ha)
        rw [hf, hc, List.length_cons,
          ih hs.2 (fun x hx => hnn x (List.mem_cons_of_mem a hx)) k']
        omega
      · have ha0 : a = 0 := le_antisymm (not_lt.mp ha) (hnn a (List.mem_cons_self a t))
        have htz : ∀ x ∈ t, ¬(0 < x) := by
          intro x hx
          have h1 : x ≤ a := hs.1 x hx
          rw [ha0] at h1
          exact not_lt.mpr h1
        have hfilter : List.filter (fun x => decide (0 < x)) (a :: t.take k') = [] := by
          rw [List.filter_eq_nil_iff]
          intro x hx
          rcases List.mem_cons.mp hx with rfl | hxt
          · simpa using ha
          · simpa using htz x (List.mem_of_mem_take hxt)
        have hcount : (a :: t).countP (fun x => decide (0 < x)) = 0 := by
          rw [List.countP_eq_length_filter]
          have : List.filter (fun x => decide (0 < x)) (a :: t) = [] := by
            rw [List.filter_eq_nil_iff]
            intro x hx
            rcases List.mem_cons.mp hx with rfl | hxt
            · simpa using ha
            · simpa using htz x hxt
          rw [this]
          rfl
        rw [hfilter, hcount]
        simp

lemma map_getD_range (l : List ℝ) :
    (List.range l.length).map (fun i => l.getD i 0) = l := by
  apply List.ext_getElem
  · simp
  · intro i h1 h2
    rw [List.getElem_map]
    rw [List.getElem_range]
    exact List.getD_eq_getElem l 0 h2

lemma selectedIdx_length_eq (idx : Index) (q : String) (k : ℕ) :
    (selectedIdx idx q k).length =
      min k ((scoresOf idx q).countP (fun s => decide (0 < s))) := by
  set sc := scoresOf idx q with hscdef
  set m := (argsortDesc sc).map (fun i => sc.getD i 0) with hm
  have hperm : m.Perm sc := by
    have h1 := (argsort_perm sc).map (fun i => sc.getD i 0)
    rw [map_getD_range sc] at h1
    exact h1
  have hms : List.Sorted (fun a b => b ≤ a) m := by
    refine List.pairwise_map.mpr ((argsort_sorted sc).imp ?_)
    intro a b hab
    rcases hab with h | ⟨h, _⟩
    · exact le_of_lt h
    · exact le_of_eq h.symm
  have hmn : ∀ x ∈ m, 0 ≤ x := by
    intro x hx
    rcases List.mem_map.mp hx with ⟨i, _, rfl⟩
    exact scoresOf_getD_nonneg idx q i
  have key := sorted_take_filter_length m hms hmn k
  have h1 : ((m.take k).filter (fun x => decide (0 < x))).length =
      (selectedIdx idx q k).length := by
    rw [hm, ← List.map_take, List.filter_map, List.length_map]
    rfl
  rw [← h1, key, hperm.countP_eq]

/-! ## Concrete corpora used by witnesses and counterexamples -/

def docsA : List Doc := [⟨some "aa", []⟩]

def idxA : Index := ⟨docsA, ["aa"]⟩

def docsB : List Doc := [⟨some "aa aa", []⟩, ⟨some "aa", []⟩]

def idxB : Index := ⟨docsB, ["aa aa", "aa"]⟩

def docsW : List Doc := [⟨some " ", []⟩, ⟨some "aa", []⟩]

def idxW : Index := ⟨docsW, [" ", "aa"]⟩

lemma idxA_load : loadData docsA = Except.ok idxA := by rfl

lemma idxB_load : loadData docsB = Except.ok idxB := by rfl

lemma idxW_load : loadData docsW = Except.ok idxW := by rfl

lemma idxA_idf : idxA.idf "aa" = 1 := by
  have h1 : idxA.nDocs = 1 := rfl
  have h2 : idxA.df "aa" = 1 := rfl
  unfold Index.idf
  rw [h1, h2]
  norm_num [Real.log_one]

lemma idxA_raw : rawW idxA ["aa"] "aa" = 1 := by
  have hc : List.count "aa" ["aa"] = 1 := by decide
  unfold rawW
  rw [hc, idxA_idf]
  norm_num

lemma idxA_vnorm : vecNorm idxA ["aa"] = 1 := by
  have hv : idxA.vocab = ["aa"] := rfl
  unfold vecNorm
  rw [hv]
  simp [idxA_raw]

lemma idxA_cos : cosSim idxA ["aa"] ["aa"] = 1 := by
  have hv : idxA.vocab = ["aa"] := rfl
  have hnw : normW idxA ["aa"] "aa" = 1 := by
    unfold normW
    rw [idxA_raw, idxA_vnorm]
    norm_num
  unfold cosSim
  rw [hv]
  simp [hnw]

lemma idxA_scores : scoresOf idxA "aa" = [1] := by
  have hct : idxA.corpusToks = [["aa"]] := rfl
  have htok : tokenize "aa" = ["aa"] := rfl
  unfold scoresOf
  rw [hct, htok]
  simp [idxA_cos]

lemma idxA_args : argsortDesc [(1:ℝ)] = [0] := by
  have hs : List.Sorted (rankRel [(1:ℝ)]) [0] := List.sorted_singleton 0
  have hr : List.range (List.length [(1:ℝ)]) = [0] := rfl
  unfold argsortDesc
  rw [hr]
  exact List.Sorted.insertionSort_eq hs

lemma idxA_sel : selectedIdx idxA "aa" 5 = [0] := by
  unfold selectedIdx
  rw [idxA_scores, idxA_args]
  have ht5 : List.take 5 [0] = [0] := rfl
  rw [ht5]
  norm_num [List.filter]

lemma idxA_search : searchSolutions "aa" idxA 5 = [(⟨some "aa", []⟩, 1)] := by
  rw [searchSolutions_eq_map idxA "aa" 5 (by decide), idxA_sel, idxA_scores]
  rfl

lemma idxB_idf : idxB.idf "aa" = 1 := by
  have h1 : idxB.nDocs = 2 := rfl
  have h2 : idxB.df "aa" = 2 := rfl
  unfold Index.idf
  rw [h1, h2]
  norm_num [Real.log_one]

lemma idxB_raw0 : rawW idxB ["aa", "aa"] "aa" = 2 := by
  have hc : List.count "aa" ["aa", "aa"] = 2 := by decide
  unfold rawW
  rw [hc, idxB_idf]
  norm_num

lemma idxB_raw1 : rawW idxB ["aa"] "aa" = 1 := by
  have hc : List.count "aa" ["aa"] = 1 := by decide
  unfold rawW
  rw [hc, idxB_idf]
  norm_num

lemma idxB_vnorm0 : vecNorm idxB ["aa", "aa"] = 2 := by
  have hv : idxB.vocab = ["aa"] := rfl
  unfold vecNorm
  rw [hv]
  have hsum : (List.map (fun t => rawW idxB ["aa", "aa"] t ^ 2) ["aa"]).sum = 4 := by
    simp [idxB_raw0]
    norm_num
  rw [hsum, show (4:ℝ) = 2 ^ 2 by norm_num]
  exact Real.sqrt_sq (by norm_num)

lemma idxB_vnorm1 : vecNorm idxB ["aa"] = 1 := by
  have hv : idxB.vocab = ["aa"] := rfl
  unfold vecNorm
  rw [hv]
  simp [idxB_raw1]

lemma idxB_cos0 : cosSim idxB ["aa", "aa"] ["aa"] = 1 := by
  have hv : idxB.vocab = ["aa"] := rfl
  have hnw0 : normW idxB ["aa", "aa"] "aa" = 1 := by
    unfold normW
    rw [idxB_raw0, idxB_vnorm0]
    norm_num
  have hnw1 : normW idxB ["aa"] "aa" = 1 := by
    unfold normW
    rw [idxB_raw1, idxB_vnorm1]
    norm_num
  unfold cosSim
  rw [hv]
  simp [hnw0, hnw1]

lemma idxB_cos1 : cosSim idxB ["aa"] ["aa"] = 1 := by
  have hv : idxB.vocab = ["aa"] := rfl
  have hnw1 : normW idxB ["aa"] "aa" = 1 := by
    unfold normW
    rw [idxB_raw1, idxB_vnorm1]
    norm_num
  unfold cosSim
  rw [hv]
  simp [hnw1]

lemma idxB_scores : scoresOf idxB "aa" = [1, 1] := by
  have hct : idxB.corpusToks = [["aa", "aa"], ["aa"]] := rfl
  have htok : tokenize "aa" = ["aa"] := rfl
  unfold scoresOf
  rw [hct, htok]
  simp [idxB_cos0, idxB_cos1]

lemma idxB_args : argsortDesc [(1:ℝ), 1] = [0, 1] := by
  have hs : List.Sorted (rankRel [(1:ℝ), 1]) [0, 1] := by
    rw [List.sorted_cons]
    refine ⟨?_, List.sorted_singleton 1⟩
    intro b hb
    rw [List.mem_singleton] at hb
    subst hb
    exact Or.inr ⟨rfl, by omega⟩
  have hr : List.range (List.length [(1:ℝ), 1]) = [0, 1] := rfl
  unfold argsortDesc
  rw [hr]
  exact List.Sorted.insertionSort_eq hs

lemma idxB_sel : selectedIdx idxB "aa" 5 = [0, 1] := by
  unfold selectedIdx
  rw [idxB_scores, idxB_args]
  norm_num [List.filter]

lemma idxB_search : searchSolutions "aa" idxB 5 =
    [(⟨some "aa aa", []⟩, 1), (⟨some "aa", []⟩, 1)] := by
  rw [searchSolutions_eq_map idxB "aa" 5 (by decide), idxB_sel, idxB_scores]
  rfl

lemma idxW_oov : ∀ t ∈ tokenize " ", t ∉ idxW.vocab := by
  intro t ht
  have h : tokenize " " = [] := by decide
  rw [h] at ht
  exact absurd ht (List.not_mem_nil t)

lemma idxW_search_nil : searchSolutions " " idxW 5 = [] :=
  (search_eq_nil_of_oov idxW " " 5 idxW_oov).2

lemma idxW_doc0_zero : docSqNorm idxW 0 = 0 := by
  have h0 : idxW.corpusToks.getD 0 [] = [] := by rfl
  unfold docSqNorm
  rw [h0]
  apply List.sum_eq_zero
  intro x hx
  rcases List.mem_map.mp hx with ⟨t, _, rfl⟩
  rw [normW_nil]
  exact zero_pow two_ne_zero

/-! ## Claim theorems -/

lemma getTexts_eq_none :
    ∀ ds : List Doc, (∃ d ∈ ds, d.text? = none) → getTexts ds = none := by
  intro ds
  induction ds with
  | nil =>
    intro h
    rcases h with ⟨d, hd, _⟩
    exact absurd hd (List.not_mem_nil d)
  | cons a t ih =>
    intro h
    rcases h with ⟨d, hd, hdn⟩
    rcases List.mem_cons.mp hd with rfl | hdt
    · unfold getTexts
      rw [hdn]
    · unfold getTexts
      rw [ih ⟨d, hdt, hdn⟩]
      cases a.text? <;> rfl

/-- C1 (amended): for every corpus accepted by `load_data`, each document row
of the TF-IDF matrix — the count-times-smoothed-IDF weight vector,
L2-normalized — has L2 norm 1, except that a document whose text field
yields no tokens (for instance an empty or whitespace-only text field) gets
the all-zero vector. -/
theorem build_l2_normalization (ds : List Doc) (idx : Index)
    (hb : loadData ds = Except.ok idx) (i : ℕ) (hi : i < idx.nDocs) :
    (tokenize (idx.texts.getD i "") ≠ [] → Real.sqrt (docSqNorm idx i) = 1) ∧
    (tokenize (idx.texts.getD i "") = [] →
      ∀ t, normW idx (idx.corpusToks.getD i []) t = 0) := by
  have htq : idx.corpusToks.getD i [] = tokenize (idx.texts.getD i "") :=
    corpusToks_getD idx hi
  constructor
  · intro hne
    obtain ⟨t0, tl, hcons⟩ := List.exists_cons_of_ne_nil hne
    have ht0 : t0 ∈ idx.corpusToks.getD i [] := by
      rw [htq, hcons]
      exact List.mem_cons_self _ _
    have hvoc : t0 ∈ idx.vocab := tok_mem_vocab idx hi ht0
    have hpos : 0 < vecNorm idx (idx.corpusToks.getD i []) :=
      vecNorm_pos idx _ t0 hvoc ht0
    have hcs : docSqNorm idx i =
        cosSim idx (idx.corpusToks.getD i []) (idx.corpusToks.getD i []) := by
      unfold docSqNorm cosSim
      simp only [pow_two]
    rw [hcs, cosSim_self idx _ (ne_of_gt hpos), Real.sqrt_one]
  · intro hnil t
    rw [htq, hnil, normW_nil]

/-- Witness for `build_l2_normalization` at the one-document corpus `docsA`. -/
theorem build_l2_normalization_witness :
    (tokenize (idxA.texts.getD 0 "") ≠ [] → Real.sqrt (docSqNorm idxA 0) = 1) ∧
    (tokenize (idxA.texts.getD 0 "") = [] →
      ∀ t, normW idxA (idxA.corpusToks.getD 0 []) t = 0) :=
  build_l2_normalization docsA idxA (by rfl) 0 (by decide)

/-- C1 counterexample: in corpus `docsW` the first document has the
non-empty text field `" "`, yet its row of the TF-IDF matrix has L2 norm 0,
not 1 — the claim's "empty text field" exception does not cover it. -/
theorem build_norm_counterexample :
    loadData docsW = Except.ok idxW ∧
    idxW.texts.getD 0 "" ≠ "" ∧ 0 < idxW.nDocs ∧
    Real.sqrt (docSqNorm idxW 0) ≠ 1 := by
  refine ⟨by rfl, by decide, by decide, ?_⟩
  rw [idxW_doc0_zero, Real.sqrt_zero]
  norm_num

/-- C2: on every built index, for every query and `top_k ≥ 1`,
`search_solutions` returns at most `top_k` matches, sorted by descending
score, and none of them has score zero. -/
theorem search_topk_sorted_nonzero (ds : List Doc) (idx : Index) (q : String)
    (k : ℕ) (hb : loadData ds = Except.ok idx) (hk : 1 ≤ k) :
    (searchSolutions q idx k).length ≤ k ∧
    List.Sorted descRel (searchSolutions q idx k) ∧
    ∀ m ∈ searchSolutions q idx k, m.2 ≠ 0 := by
  by_cases hq : q = ""
  · subst hq
    have h0 : searchSolutions "" idx k = [] := by
      unfold searchSolutions
      rw [if_pos rfl]
    rw [h0]
    refine ⟨Nat.zero_le k, List.sorted_nil, ?_⟩
    intro m hm
    exact absurd hm (List.not_mem_nil m)
  · rw [searchSolutions_eq_map idx q k hq]
    refine ⟨?_, results_sorted idx q k, ?_⟩
    · rw [List.length_map]
      calc (selectedIdx idx q k).length
          ≤ ((argsortDesc (scoresOf idx q)).take k).length :=
            List.length_filter_le _ _
        _ ≤ k := by
            rw [List.length_take]
            exact inf_le_left
    · intro m hm
      rcases List.mem_map.mp hm with ⟨i, hi, rfl⟩
      exact ne_of_gt (selectedIdx_mem idx q k hi).2

/-- Witness for `search_topk_sorted_nonzero` on `docsA` with query "aa". -/
theorem search_topk_sorted_nonzero_witness :
    (searchSolutions "aa" idxA 5).length ≤ 5 ∧
    List.Sorted descRel (searchSolutions "aa" idxA 5) ∧
    ∀ m ∈ searchSolutions "aa" idxA 5, m.2 ≠ 0 :=
  search_topk_sorted_nonzero docsA idxA "aa" 5 (by rfl) (by norm_num)

/-- C3: `load_data` fails on the empty corpus — the empty-vocabulary
`ValueError`, the spec's `EmptyCorpusError` — and fails with the
missing-field error (`KeyError`, the spec's `MissingFieldError`) whenever
some document lacks the text field. -/
theorem build_error_conditions :
    loadData ([] : List Doc) = Except.error BuildError.emptyVocab ∧
    ∀ ds : List Doc, (∃ d ∈ ds, d.text? = none) →
      loadData ds = Except.error BuildError.missingField := by
  refine ⟨by rfl, ?_⟩
  intro ds h
  unfold loadData
  rw [getTexts_eq_none ds h]

/-- Witness for `build_error_conditions` on a one-document corpus whose
document lacks the text field. -/
theorem build_error_conditions_witness :
    loadData [Doc.mk none []] = Except.error BuildError.missingField :=
  build_error_conditions.2 [Doc.mk none []]
    ⟨Doc.mk none [], List.mem_singleton.mpr rfl, rfl⟩

/-- C4: search results are exactly the selected indices, in an order where
scores strictly decrease and equal scores are ordered by original corpus
position (including which tied documents survive the `top_k` cut), mapped
to their (document, score) pairs. -/
theorem search_tie_break_corpus_order (ds : List Doc) (idx : Index)
    (q : String) (k : ℕ) (hb : loadData ds = Except.ok idx) :
    searchSolutions q idx k = (selectedIdx idx q k).map
      (fun i => (idx.docs.getD i default, (scoresOf idx q).getD i 0)) ∧
    List.Pairwise (fun i j =>
      (scoresOf idx q).getD j 0 < (scoresOf idx q).getD i 0 ∨
      ((scoresOf idx q).getD i 0 = (scoresOf idx q).getD j 0 ∧ i < j))
      (selectedIdx idx q k) := by
  constructor
  · by_cases hq : q = ""
    · subst hq
      have h1 : searchSolutions "" idx k = [] := by
        unfold searchSolutions
        rw [if_pos rfl]
      have h2 : selectedIdx idx "" k = [] := by
        refine (search_eq_nil_of_oov idx "" k ?_).1
        intro t ht
        rw [tokenize_empty] at ht
        exact absurd ht (List.not_mem_nil t)
      rw [h1, h2]
      rfl
    · exact searchSolutions_eq_map idx q k hq
  · have hp := selectedIdx_pairwise idx q k
    have hn : List.Pairwise (fun i j : ℕ => i ≠ j) (selectedIdx idx q k) :=
      selectedIdx_nodup idx q k
    refine (hp.and hn).imp ?_
    intro a b hab
    rcases hab with ⟨h | ⟨he, hle⟩, hne⟩
    · exact Or.inl h
    · exact Or.inr ⟨he, lt_of_le_of_ne hle hne⟩

/-- Witness for `search_tie_break_corpus_order` on the two-document corpus
`docsB`, whose documents tie at score 1 for query "aa". -/
theorem search_tie_break_corpus_order_witness :
    searchSolutions "aa" idxB 5 = (selectedIdx idxB "aa" 5).map
      (fun i => (idxB.docs.getD i default, (scoresOf idxB "aa").getD i 0)) ∧
    List.Pairwise (fun i j =>
      (scoresOf idxB "aa").getD j 0 < (scoresOf idxB "aa").getD i 0 ∨
      ((scoresOf idxB "aa").getD i 0 = (scoresOf idxB "aa").getD j 0 ∧ i < j))
      (selectedIdx idxB "aa" 5) :=
  search_tie_break_corpus_order docsB idxB "aa" 5 (by rfl)

/-- C5: on every built index, search of the empty query returns `[]`
immediately; search is a total function always returning a
descending-sorted list, and a query with no vocabulary term returns `[]`. -/
theorem search_total_empty_query (ds : List Doc) (idx : Index) (k : ℕ)
    (hb : loadData ds = Except.ok idx) :
    searchSolutions "" idx k = [] ∧
    ∀ q : String, List.Sorted descRel (searchSolutions q idx k) ∧
      ((∀ t ∈ tokenize q, t ∉ idx.vocab) → searchSolutions q idx k = []) := by
  constructor
  · unfold searchSolutions
    rw [if_pos rfl]
  · intro q
    constructor
    · by_cases hq : q = ""
      · subst hq
        have h1 : searchSolutions "" idx k = [] := by
          unfold searchSolutions
          rw [if_pos rfl]
        rw [h1]
        exact List.sorted_nil
      · rw [searchSolutions_eq_map idx q k hq]
        exact results_sorted idx q k
    · intro hoov
      exact (search_eq_nil_of_oov idx q k hoov).2

/-- Witness for `search_total_empty_query` on the built index of `docsA`. -/
theorem search_total_empty_query_witness :
    searchSolutions "" idxA 5 = [] ∧
    ∀ q : String, List.Sorted descRel (searchSolutions q idxA 5) ∧
      ((∀ t ∈ tokenize q, t ∉ idxA.vocab) → searchSolutions q idxA 5 = []) :=
  search_total_empty_query docsA idxA 5 (by rfl)

/-- C6 (amended): if the query string equals the text field of document `d`,
that text yields at least one token, no other document's cosine similarity
against the query is 1 (a document with a proportional term profile can
reach 1 without an identical text field), and `top_k ≥ 1`, then search
scores document `d` exactly 1 and ranks it first. -/
theorem query_self_match_ranks_first (ds : List Doc) (idx : Index)
    (d k : ℕ) (q : String) (hb : loadData ds = Except.ok idx)
    (hd : d < idx.nDocs) (hq : q = idx.texts.getD d "")
    (htoks : tokenize q ≠ [])
    (huniq : ∀ j < idx.nDocs, j ≠ d →
      cosSim idx (idx.corpusToks.getD j []) (tokenize q) ≠ 1)
    (hk : 1 ≤ k) :
    (searchSolutions q idx k).head? = some (idx.docs.getD d default, 1) := by
  have hqne : q ≠ "" := by
    intro h
    rw [h, tokenize_empty] at htoks
    exact htoks rfl
  have htq : tokenize q = idx.corpusToks.getD d [] := by
    rw [hq]
    exact (corpusToks_getD idx hd).symm
  obtain ⟨t0, tl, hcons⟩ := List.exists_cons_of_ne_nil htoks
  have ht0 : t0 ∈ idx.corpusToks.getD d [] := by
    rw [← htq, hcons]
    exact List.mem_cons_self _ _
  have hvoc : t0 ∈ idx.vocab := tok_mem_vocab idx hd ht0
  have hnorm : 0 < vecNorm idx (idx.corpusToks.getD d []) :=
    vecNorm_pos idx _ t0 hvoc ht0
  have hlen : d < (scoresOf idx q).length := by
    rw [scoresOf_length]
    exact hd
  have hscd : (scoresOf idx q).getD d 0 = 1 := by
    rw [scoresOf_getD idx q hd, htq]
    exact cosSim_self idx _ (ne_of_gt hnorm)
  have hmax : ∀ j < (scoresOf idx q).length, j ≠ d →
      (scoresOf idx q).getD j 0 < (scoresOf idx q).getD d 0 := by
    intro j hj hne
    have hjn : j < idx.nDocs := by
      rw [scoresOf_length] at hj
      exact hj
    rw [hscd, scoresOf_getD idx q hjn]
    exact lt_of_le_of_ne (cosSim_le_one idx _ _) (huniq j hjn hne)
  have hpos : 0 < (scoresOf idx q).getD d 0 := by
    rw [hscd]
    norm_num
  have hhead := searchSolutions_head idx q k d hqne hlen hmax hpos hk
  rw [hscd] at hhead
  exact hhead

/-- Witness for `query_self_match_ranks_first`: on `docsA`, querying the
sole document's own text returns it first with score 1. -/
theorem query_self_match_ranks_first_witness :
    (searchSolutions "aa" idxA 5).head? = some (idxA.docs.getD 0 default, 1) :=
  query_self_match_ranks_first docsA idxA 0 5 "aa" (by rfl) (by decide)
    (by rfl) (by decide)
    (by
      intro j hj hne
      have h1 : idxA.nDocs = 1 := rfl
      rw [h1] at hj
      exact absurd (by omega : j = 0) hne)
    (by norm_num)

/-- C6 counterexample, both failure modes of the claim as stated.
In corpus `docsB` the query "aa" equals the text of document 1 and no other
document has an identical text field, yet document 0 ("aa aa"), whose
vector is parallel, also scores 1 and the tie-break ranks it first.
In corpus `docsW` the query " " equals the non-empty text of document 0 and
no other document has an identical text field, yet the result is empty, so
that document neither scores 1 nor appears at all. -/
theorem query_self_match_counterexample :
    (loadData docsB = Except.ok idxB ∧
      idxB.texts.getD 1 "" = "aa" ∧ idxB.texts.getD 0 "" ≠ "aa" ∧
      cosSim idxB (idxB.corpusToks.getD 1 []) (tokenize "aa") = 1 ∧
      (searchSolutions "aa" idxB 5).head? ≠
        some (idxB.docs.getD 1 default, 1)) ∧
    (loadData docsW = Except.ok idxW ∧
      idxW.texts.getD 0 "" = " " ∧ idxW.texts.getD 1 "" ≠ " " ∧
      searchSolutions " " idxW 5 = []) := by
  refine ⟨⟨by rfl, by rfl, by decide, ?_, ?_⟩,
    by rfl, by rfl, by decide, idxW_search_nil⟩
  · have h1 : idxB.corpusToks.getD 1 [] = ["aa"] := by rfl
    have h2 : tokenize "aa" = ["aa"] := by rfl
    rw [h1, h2]
    exact idxB_cos1
  · have hhd : (searchSolutions "aa" idxB 5).head? =
        some ((⟨some "aa aa", []⟩ : Doc), (1:ℝ)) := by
      rw [idxB_search]
      rfl
    rw [hhd]
    have hdocs1 : idxB.docs.getD 1 default = (⟨some "aa", []⟩ : Doc) := by rfl
    rw [hdocs1]
    intro hc
    have hpair := Option.some.inj hc
    have hdoc := congrArg Prod.fst hpair
    have hne : (⟨some "aa aa", []⟩ : Doc) ≠ ⟨some "aa", []⟩ := by decide
    exact hne hdoc

/-- C7: every match returned by search carries a score in `[0, 1]` that is
the cosine similarity — the dot product of the unit-normalized query and
document TF-IDF vectors — of some corpus document against the query. -/
theorem search_scores_in_unit_interval (ds : List Doc) (idx : Index)
    (q : String) (k : ℕ) (hb : loadData ds = Except.ok idx) :
    ∀ m ∈ searchSolutions q idx k,
      (0 ≤ m.2 ∧ m.2 ≤ 1) ∧
      ∃ i < idx.nDocs,
        m.2 = cosSim idx (idx.corpusToks.getD i []) (tokenize q) := by
  intro m hm
  by_cases hq : q = ""
  · subst hq
    have h0 : searchSolutions "" idx k = [] := by
      unfold searchSolutions
      rw [if_pos rfl]
    rw [h0] at hm
    exact absurd hm (List.not_mem_nil m)
  · rw [searchSolutions_eq_map idx q k hq] at hm
    rcases List.mem_map.mp hm with ⟨i, hi, rfl⟩
    have hmem := selectedIdx_mem idx q k hi
    have hin : i < idx.nDocs := by
      have h1 := hmem.1
      rw [scoresOf_length] at h1
      exact h1
    refine ⟨⟨le_of_lt hmem.2, ?_⟩, ⟨i, hin, ?_⟩⟩
    · show (scoresOf idx q).getD i 0 ≤ 1
      rw [scoresOf_getD idx q hin]
      exact cosSim_le_one idx _ _
    · exact scoresOf_getD idx q hin

/-- Witness for `search_scores_in_unit_interval`: the match returned on
`docsA` for query "aa". -/
theorem search_scores_in_unit_interval_witness :
    (0 ≤ ((⟨some "aa", []⟩, (1:ℝ)) : Doc × ℝ).2 ∧
      ((⟨some "aa", []⟩, (1:ℝ)) : Doc × ℝ).2 ≤ 1) ∧
    ∃ i < idxA.nDocs,
      ((⟨some "aa", []⟩, (1:ℝ)) : Doc × ℝ).2 =
        cosSim idxA (idxA.corpusToks.getD i []) (tokenize "aa") :=
  search_scores_in_unit_interval docsA idxA "aa" 5 (by rfl)
    (⟨some "aa", []⟩, 1)
    (by
      rw [idxA_search]
      exact List.mem_singleton.mpr rfl)

/-- C8: search is deterministic — the same `(index, query, top_k)` arguments
always produce the same result, also when the second call runs on the state
the first call left behind. -/
theorem search_deterministic (ds : List Doc) (idx : Index) (q : String)
    (k : ℕ) (hb : loadData ds = Except.ok idx) :
    searchSolutions q idx k = searchSolutions q idx k ∧
    (searchSolutionsSt q (searchSolutionsSt q idx k).1 k).2 =
      (searchSolutionsSt q idx k).2 := by
  refine ⟨rfl, ?_⟩
  rw [searchSt_fst]

/-- Witness for `search_deterministic` on the built index of `docsA`. -/
theorem search_deterministic_witness :
    searchSolutions "aa" idxA 5 = searchSolutions "aa" idxA 5 ∧
    (searchSolutionsSt "aa" (searchSolutionsSt "aa" idxA 5).1 5).2 =
      (searchSolutionsSt "aa" idxA 5).2 :=
  search_deterministic docsA idxA "aa" 5 (by rfl)

/-- C9: search never mutates the index — the state coming out of the
state-threaded rendition of `search_solutions` is exactly the state that
went in (documents, fitted vectorizer and TF-IDF matrix untouched, hence
also the derived vocabulary and document vectors), and its result is that
of the pure function. -/
theorem search_preserves_index (q : String) (idx : Index) (k : ℕ) :
    (searchSolutionsSt q idx k).1 = idx ∧
    (searchSolutionsSt q idx k).2 = searchSolutions q idx k := by
  refine ⟨searchSt_fst q idx k, ?_⟩
  unfold searchSolutionsSt searchSolutions
  by_cases hq : q = ""
  · rw [if_pos hq, if_pos hq]
  · rw [if_neg hq, if_neg hq]

/-- C10: for a built index, a non-empty query and `top_k ≥ 1`, the number of
matches returned is the minimum of `top_k` and the number of corpus
documents scoring strictly positive similarity — the argsort prefix cannot
drop a positive-score document that would fit. -/
theorem search_result_length_min (ds : List Doc) (idx : Index) (q : String)
    (k : ℕ) (hb : loadData ds = Except.ok idx) (hq : q ≠ "") (hk : 1 ≤ k) :
    (searchSolutions q idx k).length =
      min k ((scoresOf idx q).countP (fun s => decide (0 < s))) := by
  rw [searchSolutions_eq_map idx q k hq, List.length_map]
  exact selectedIdx_length_eq idx q k

/-- Witness for `search_result_length_min` on `docsA` with query "aa". -/
theorem search_result_length_min_witness :
    (searchSolutions "aa" idxA 5).length =
      min 5 ((scoresOf idxA "aa").countP (fun s => decide (0 < s))) :=
  search_result_length_min docsA idxA "aa" 5 (by rfl) (by decide) (by norm_num)
